import Mathlib

/-!
Shallow embedding of the CTFNote team/invite service
(`src/services/Team.ts`) and of the logging-instrumented variant of the
same service, together with theorems settling the frozen claims about it.

The document store (mongoose models) is embedded as an explicit record
`DB` holding the user, team and invite records; every service operation
becomes a function `DB → … → Except Err (result × DB)`.  The operations
throw before any write on every error path that the theorems below rely
on, so an `Except.error` result stands for "state unchanged".

JavaScript pecularities that the source leans on are embedded explicitly:
`String.prototype.toLowerCase` (ASCII range), `Array.prototype.indexOf`
returning `-1` when the element is absent, and `Array.prototype.splice`
removing in place and returning the removed elements (including the
negative-start clamping that `splice(indexOf(x), 1)` hits when `x` is
absent).  Runtime type failures (member access on `null`/`undefined`)
are embedded as the distinguished error `Err.typeError`.
-/

namespace CTFNote

/-- Payload of a decoded bearer token: `{ id, isAdmin }` (the `JWTData`
type of the source). -/
structure JWTData where
  id : Nat
  isAdmin : Bool
deriving DecidableEq, Repr

/-- A bearer token as the service can observe it: correctly signed with a
payload, well-formed but badly signed (verification fails, decoding
succeeds), or malformed (verification and decoding both fail). -/
inductive JWT where
  | valid (d : JWTData)
  | badSig (d : JWTData)
  | malformed
deriving DecidableEq, Repr

/-- True for the tokens on which signature verification fails. -/
def JWT.isInvalid : JWT → Bool
  | .valid _ => false
  | .badSig _ => true
  | .malformed => true

/-- The error taxonomy of `src/types/httperrors` as used by the team
service, each with its optional `errorMessage` and `errorCode` payload,
plus `typeError` for an uncaught JavaScript `TypeError` (member access on
`null`/`undefined`). -/
inductive Err where
  | badRequestError (errorMessage : Option String) (errorCode : Option String)
  | conflictError (errorMessage : Option String) (errorCode : Option String)
  | notFoundError (errorMessage : Option String) (errorCode : Option String)
  | unauthorizedError (errorMessage : Option String) (errorCode : Option String)
  | internalServerError
  | typeError
deriving DecidableEq, Repr

def msgInvalidJWT : String := "Invalid JWT"
def codeTeamExists : String := "error_team_exists"
def codeTeamNotFound : String := "error_team_not_found"
def codePermsTeamTs : String := "error_invalid_permissionseeeee"
def codePermsVariant : String := "error_invalid_permissions"
def msgNewOwnerInTeam : String := "New owner must be in team before transfer of ownership"
def msgCannotTransfer : String := "Cannot transfer ownership"
def codeUserNotOwner : String := "error_user_not_owner"
def msgOnlyOwnerInvites : String := "Only the team owner can create invites"
def codeInvalidPerms : String := "error_invalid_permissions"
def codeExpiredInvite : String := "error_expired_invite"
def msgInviteNotFound : String := "Invite not found"
def msgOwnerMayNotLeave : String := "Owner may not leave team"
def msgCannotLeave : String := "Cannot leave team"
def codeNotInTeam : String := "error_not_in_team"
def msgOnlyOwnerDelete : String := "Only the team owner can delete the team"

/-- The error every operation raises when `jsonWebToken.verify` fails:
`new BadRequestError({ errorMessage: "Invalid JWT" })`. -/
def invalidJWTError : Err := Err.badRequestError (some msgInvalidJWT) none

/-- Embeds the inline `jsonWebToken.verify` / `catch { throw new
BadRequestError({ errorMessage: "Invalid JWT" }) }` pattern of
`Team.ts`, and — modelled from the spec (§4.1 Identity Verifier) — the
`verifyJWT` helper of `src/util` that the logging-instrumented variant
calls instead (that helper is not among the sources; the spec states it
fails with the authentication error on an invalid token). -/
def verifyJWT : JWT → Except Err JWTData
  | .valid d => .ok d
  | .badSig _ => .error invalidJWTError
  | .malformed => .error invalidJWTError

/-- `jsonWebToken.decode`: no signature check; yields the payload for any
well-formed token and `null` (here `none`) for a malformed one. -/
def decodeJWT : JWT → Option JWTData
  | .valid d => some d
  | .badSig d => some d
  | .malformed => none

/-- A user record (`UserModel`): id, admin flag, and the list of team
references (`teams`). -/
structure User where
  _id : Nat
  isAdmin : Bool
  teams : List Nat
deriving DecidableEq, Repr

/-- The `socials` subdocument of a team. -/
structure Socials where
  twitter : Option String
  website : Option String
deriving DecidableEq, Repr

/-- A team record (`TeamModel`): name, owner reference, member
references, socials, invite references. -/
structure Team where
  _id : Nat
  name : String
  owner : Nat
  members : List Nat
  socials : Socials
  invites : List Nat
deriving DecidableEq, Repr

/-- An invite record (`TeamInviteModel`). -/
structure Invite where
  _id : Nat
  team : Nat
  inviteCode : String
  expiry : Option Nat
  maxUses : Option Nat
  createdAt : Nat
  createdByUser : Nat
  uses : List Nat
deriving DecidableEq, Repr

/-- The whole document store. -/
structure DB where
  users : List User
  teams : List Team
  invites : List Invite
deriving DecidableEq, Repr

def DB.findUserById (db : DB) (id : Nat) : Option User :=
  db.users.find? (fun u => u._id == id)

def DB.findTeamById (db : DB) (id : Nat) : Option Team :=
  db.teams.find? (fun t => t._id == id)

def DB.findInviteByCode (db : DB) (code : String) : Option Invite :=
  db.invites.find? (fun i => i.inviteCode == code)

/-- Persist a user record (`user.save()`): replace the stored record with
the same id. -/
def saveUserList (users : List User) (u : User) : List User :=
  users.map (fun x => if x._id == u._id then u else x)

/-- Persist a team record (`team.save()`). -/
def saveTeamList (teams : List Team) (t : Team) : List Team :=
  teams.map (fun x => if x._id == t._id then t else x)

/-- Persist an invite record (`invite.save()`). -/
def saveInviteList (invites : List Invite) (i : Invite) : List Invite :=
  invites.map (fun x => if x._id == i._id then i else x)

/-- JavaScript `String.prototype.toLowerCase` on the ASCII range, as the
source applies it to team names (`teamName.toLowerCase()`). -/
def jsToLowerCase (s : String) : String := ⟨s.data.map Char.toLower⟩

/-- JavaScript `Array.prototype.indexOf`: index of the first occurrence,
`-1` when absent. -/
def jsIndexOf (l : List Nat) (x : Nat) : Int :=
  match l with
  | [] => -1
  | a :: t =>
    if a == x then 0
    else
      let r := jsIndexOf t x
      if r < 0 then -1 else r + 1

/-- JavaScript `arr.splice(start, 1)`: removes one element in place at
the clamped start index and returns the removed elements.  The result is
`(removed, remaining)`; the source always assigns the *removed* list
back over the field it spliced. -/
def jsSpliceOne (l : List Nat) (start : Int) : List Nat × List Nat :=
  let s : Nat := if start < 0 then ((l.length : Int) + start).toNat else min start.toNat l.length
  ((l.drop s).take 1, l.take s ++ l.drop (s + 1))

/-- Modelled from the spec: `inTeam` lives on the mongoose team model
(`src/models/Team`, not among the sources).  Per §4.2 (`getTeam`:
"caller is admin or a team member (owner counts as member)") it holds
when the user is the owner or appears in the member list. -/
def Team.inTeam (t : Team) (u : User) : Bool :=
  t.owner == u._id || t.members.contains u._id

/-- Modelled from the spec: `isOwner` of the mongoose team model — the
user is the single owner reference of the team. -/
def Team.isOwner (t : Team) (u : User) : Bool :=
  t.owner == u._id

/-- Modelled from the spec: `basicInvite` (`src/util`, not among the
sources) builds the reduced invite view returned to non-admin callers,
"omitting sensitive/internal fields (creator id, raw use list)" (§4.2,
§8).  The structure deliberately has no `createdByUser` and no `uses`
field. -/
structure BasicInvite where
  team : Nat
  inviteCode : String
  expiry : Option Nat
  maxUses : Option Nat
  createdAt : Nat
deriving DecidableEq, Repr

def basicInvite (i : Invite) : BasicInvite :=
  { team := i.team, inviteCode := i.inviteCode, expiry := i.expiry,
    maxUses := i.maxUses, createdAt := i.createdAt }

/-- Result of `getInvite`: the full invite record for admins (`null`
when the code matches nothing) or the reduced view for everyone else. -/
inductive InviteView where
  | full (invite : Option Invite)
  | basic (b : BasicInvite)
deriving DecidableEq, Repr

/-- The `TeamDetailsUpdateData` patch: optional name and socials. -/
structure SocialsPatch where
  twitter : Option String
  website : Option String
deriving DecidableEq, Repr

structure TeamDetailsUpdateData where
  name : Option String
  socials : Option SocialsPatch
deriving DecidableEq, Repr

/-- JavaScript truthiness of an optional string field: absent and the
empty string are falsy. -/
def strTruthy : Option String → Bool
  | none => false
  | some s => !(s == "")

/-- The `InviteOptions` argument of `createInvite`. -/
structure InviteOptions where
  expiry : Option Nat
  maxUses : Option Nat
deriving DecidableEq, Repr

/-- Embeds `x ? x : undefined` on an optional numeric field: `0` is
falsy in JavaScript, so it collapses to `undefined`. -/
def natTruthy : Option Nat → Option Nat
  | none => none
  | some n => if n == 0 then none else some n

/-- `uses.length >= maxUses` with JavaScript comparison semantics: when
`maxUses` is `undefined` the comparison is false. -/
def inviteExhausted (i : Invite) : Bool :=
  match i.maxUses with
  | some m => decide (m ≤ i.uses.length)
  | none => false

/-- `new Date() >= new Date(invite.expiry)`: false when `expiry` is
`undefined` (comparison against an invalid date). -/
def inviteExpired (i : Invite) (now : Nat) : Bool :=
  match i.expiry with
  | some e => decide (e ≤ now)
  | none => false

/-- `TeamService.createTeam` of `Team.ts`: name-conflict check (against
the lowercased requested name) *before* token verification, then owner
lookup, team creation with the lowercased name and empty members and
invites, and append of the new team to the owner record.  `newTeamId`
stands for the id the store assigns.  (The branch where the token is
valid but the caller record is missing persists the team before
`owner.teams.push` crashes; it is collapsed here to `typeError` and no
theorem touches it.) -/
def createTeam (db : DB) (jwt : JWT) (teamName : String) (newTeamId : Nat) :
    Except Err ((String × Nat) × DB) :=
  if db.teams.any (fun t => t.name == jsToLowerCase teamName) then
    .error (Err.conflictError none (some codeTeamExists))
  else
    match verifyJWT jwt with
    | .error e => .error e
    | .ok d =>
      match db.findUserById d.id with
      | none => .error Err.typeError
      | some owner =>
        let team : Team :=
          { _id := newTeamId, name := jsToLowerCase teamName, owner := owner._id,
            members := [], socials := { twitter := none, website := none }, invites := [] }
        let owner1 := { owner with teams := owner.teams ++ [team._id] }
        .ok ((team.name, team._id),
          { db with teams := db.teams ++ [team], users := saveUserList db.users owner1 })

/-- `TeamService.getTeam` of `Team.ts`: verify the token, fetch caller
and team, `NotFoundError` when the team is absent, and unless the caller
is an admin require `team.inTeam(caller)` (note the `errorCode`
`"error_invalid_permissionseeeee"` of this variant). -/
def getTeam (db : DB) (jwt : JWT) (teamID : Nat) : Except Err (Team × DB) :=
  match verifyJWT jwt with
  | .error e => .error e
  | .ok d =>
    match db.findUserById d.id with
    | none => .error Err.typeError
    | some user =>
      match db.findTeamById teamID with
      | none => .error (Err.notFoundError none (some codeTeamNotFound))
      | some team =>
        if !user.isAdmin && !(team.inTeam user) then
          .error (Err.unauthorizedError none (some codePermsTeamTs))
        else .ok (team, db)

/-- `TeamService.updateTeam` of `Team.ts`: authorization via `getTeam`,
then truthy-guarded field assignments.  The source assigns
`newDetails.socials.twitter` to **both** `socials.twitter` and
`socials.website`; the embedding mirrors that line for line. -/
def updateTeam (db : DB) (jwt : JWT) (teamID : Nat)
    (newDetails : TeamDetailsUpdateData) : Except Err (Team × DB) :=
  match getTeam db jwt teamID with
  | .error e => .error e
  | .ok (team, _) =>
    let t1 := if strTruthy newDetails.name then
        { team with name := newDetails.name.getD team.name }
      else team
    let t2 := match newDetails.socials with
      | none => t1
      | some sp =>
        let ta := if strTruthy sp.twitter then
            { t1 with socials := { t1.socials with twitter := sp.twitter } }
          else t1
        if strTruthy sp.website then
          { ta with socials := { ta.socials with website := sp.twitter } }
        else ta
    .ok (t2, { db with teams := saveTeamList db.teams t2 })

/-- `TeamService.updateOwner` of `Team.ts`.  `jsonWebToken.decode` (no
signature check) resolves the caller; a malformed token makes the
synchronous `.id` access throw a `TypeError` before the `Promise.all`
settles, while the `getTeam` rejection (which verifies the token) wins
otherwise.  Unless the decoded payload claims admin, the new owner must
be in the team and the caller must be the current owner; only then is
the owner reference replaced and saved. -/
def updateOwner (db : DB) (jwt : JWT) (teamID : Nat) (newOwnerID : Nat) :
    Except Err (Team × DB) :=
  let r0 := getTeam db jwt teamID
  match decodeJWT jwt with
  | none => .error Err.typeError
  | some d =>
    match r0 with
    | .error e => .error e
    | .ok (team, _) =>
      match db.findUserById d.id with
      | none => .error Err.typeError
      | some oldOwner =>
        match db.findUserById newOwnerID with
        | none => .error Err.typeError
        | some newOwner =>
          if !d.isAdmin && !(team.inTeam newOwner) then
            .error (Err.badRequestError (some msgNewOwnerInTeam) none)
          else if !d.isAdmin && !(team.isOwner oldOwner) then
            .error (Err.badRequestError (some msgCannotTransfer) (some codeUserNotOwner))
          else
            let team1 := { team with owner := newOwner._id }
            .ok (team1, { db with teams := saveTeamList db.teams team1 })

/-- `TeamService.createInvite` of `Team.ts`: verify the token, fetch
caller and team, owner-or-admin gate, then create the invite (truthy
expiry and max-use options, fresh random `code`, creation time `now`)
and append its reference to the team. -/
def createInvite (db : DB) (jwt : JWT) (teamID : Nat) (opts : InviteOptions)
    (newInviteId : Nat) (code : String) (now : Nat) : Except Err (Invite × DB) :=
  match verifyJWT jwt with
  | .error e => .error e
  | .ok d =>
    match db.findUserById d.id with
    | none => .error Err.typeError
    | some user =>
      match db.findTeamById teamID with
      | none => .error Err.typeError
      | some team =>
        if !user.isAdmin && !(team.isOwner user) then
          .error (Err.badRequestError (some msgOnlyOwnerInvites) (some codeInvalidPerms))
        else
          let invite : Invite :=
            { _id := newInviteId, team := team._id, inviteCode := code,
              expiry := natTruthy opts.expiry, maxUses := natTruthy opts.maxUses,
              createdAt := now, createdByUser := user._id, uses := [] }
          let team1 := { team with invites := team.invites ++ [invite._id] }
          .ok (invite,
            { db with invites := db.invites ++ [invite],
                      teams := saveTeamList db.teams team1 })

/-- `TeamService.getInvite` of `Team.ts`: fetch the invite by code, then
(when a token is present) verify it and fetch the caller.  A non-admin
(or anonymous) caller gets the expiry/max-use gate and then the reduced
view; an admin gets the raw record (even `null`). -/
def getInvite (db : DB) (jwt : Option JWT) (inviteID : String) (now : Nat) :
    Except Err (InviteView × DB) :=
  let invite? := db.findInviteByCode inviteID
  let user? : Except Err (Option User) :=
    match jwt with
    | some j =>
      match verifyJWT j with
      | .error e => .error e
      | .ok d => .ok (db.findUserById d.id)
    | none => .ok none
  match user? with
  | .error e => .error e
  | .ok user? =>
    let isAdm := match user? with
      | some u => u.isAdmin
      | none => false
    if !isAdm then
      match invite? with
      | none => .error Err.typeError
      | some invite =>
        if inviteExhausted invite || inviteExpired invite now then
          .error (Err.badRequestError none (some codeExpiredInvite))
        else .ok (InviteView.basic (basicInvite invite), db)
    else .ok (InviteView.full invite?, db)

/-- `TeamService.deleteInvite` of `Team.ts`: verify the token, fetch
caller and invite, `NotFoundError` when the invite is absent, owner-or-
admin gate against the invite's team, then delete the invite record. -/
def deleteInvite (db : DB) (jwt : JWT) (inviteID : String) :
    Except Err (Unit × DB) :=
  match verifyJWT jwt with
  | .error e => .error e
  | .ok d =>
    match db.findInviteByCode inviteID with
    | none => .error (Err.notFoundError (some msgInviteNotFound) none)
    | some invite =>
      match db.findUserById d.id with
      | none => .error Err.typeError
      | some user =>
        if user.isAdmin then
          .ok ((), { db with invites := db.invites.filter (fun i => !(i._id == invite._id)) })
        else
          match db.findTeamById invite.team with
          | none => .error Err.typeError
          | some team =>
            if !(team.isOwner user) then
              .error (Err.badRequestError none (some codeInvalidPerms))
            else
              .ok ((), { db with invites := db.invites.filter (fun i => !(i._id == invite._id)) })

/-- `TeamService.useInvite` of `Team.ts`: verify the token, fetch caller
and invite, `NotFoundError` when the invite is absent, and then —
without any expiry or max-use check — push the caller onto the team's
member list, the team onto the caller's team list, and the caller onto
the invite's use list, saving all three. -/
def useInvite (db : DB) (jwt : JWT) (inviteID : String) :
    Except Err (Team × DB) :=
  match verifyJWT jwt with
  | .error e => .error e
  | .ok d =>
    match db.findInviteByCode inviteID with
    | none => .error (Err.notFoundError (some msgInviteNotFound) none)
    | some invite =>
      match db.findTeamById invite.team with
      | none => .error Err.typeError
      | some team =>
        match db.findUserById d.id with
        | none => .error Err.typeError
        | some user =>
          let team1 := { team with members := team.members ++ [user._id] }
          let user1 := { user with teams := user.teams ++ [team._id] }
          let invite1 := { invite with uses := invite.uses ++ [user._id] }
          .ok (team1,
            { db with teams := saveTeamList db.teams team1,
                      users := saveUserList db.users user1,
                      invites := saveInviteList db.invites invite1 })

/-- `TeamService.leaveTeam` of `Team.ts`: verify the token, fetch caller
and team, `NotFoundError` when the team is absent, `ConflictError` for
the owner and for a non-member, then the splice lines of the source —
`team.members = team.members.splice(team.members.indexOf(user._id), 1)`
and likewise for `user.teams` — which assign the *removed* elements back
over each list. -/
def leaveTeam (db : DB) (jwt : JWT) (teamID : Nat) : Except Err (Unit × DB) :=
  match verifyJWT jwt with
  | .error e => .error e
  | .ok d =>
    match db.findTeamById teamID with
    | none => .error (Err.notFoundError none (some codeTeamNotFound))
    | some team =>
      match db.findUserById d.id with
      | none => .error Err.typeError
      | some user =>
        if team.isOwner user then
          .error (Err.conflictError (some msgOwnerMayNotLeave) none)
        else if !(team.inTeam user) then
          .error (Err.conflictError (some msgCannotLeave) (some codeNotInTeam))
        else
          let team1 := { team with
            members := (jsSpliceOne team.members (jsIndexOf team.members user._id)).1 }
          let user1 := { user with
            teams := (jsSpliceOne user.teams (jsIndexOf user.teams team._id)).1 }
          .ok ((), { db with teams := saveTeamList db.teams team1,
                             users := saveUserList db.users user1 })

/-- `TeamService.deleteTeam` of `Team.ts`: verify the token, fetch
caller and team, owner-or-admin gate, splice the team out of the caller
record (same removed-element assignment as `leaveTeam`), iterate the
member references doing the same to each member record (modelled from
the spec: the member references are resolved to their user records;
references with no record are skipped), save the caller last, and delete
the team record. -/
def deleteTeam (db : DB) (jwt : JWT) (teamID : Nat) : Except Err (Unit × DB) :=
  match verifyJWT jwt with
  | .error e => .error e
  | .ok d =>
    match db.findUserById d.id with
    | none => .error Err.typeError
    | some user =>
      match db.findTeamById teamID with
      | none => .error Err.typeError
      | some team =>
        if !user.isAdmin && !(team.isOwner user) then
          .error (Err.badRequestError (some msgOnlyOwnerDelete) (some codeInvalidPerms))
        else
          let user1 := { user with
            teams := (jsSpliceOne user.teams (jsIndexOf user.teams team._id)).1 }
          let usersAfterMembers := db.users.map (fun u =>
            if team.members.contains u._id then
              { u with teams := (jsSpliceOne u.teams (jsIndexOf u.teams team._id)).1 }
            else u)
          .ok ((), { db with users := saveUserList usersAfterMembers user1,
                             teams := db.teams.filter (fun t => !(t._id == team._id)) })

/-- `createTeam` of the logging-instrumented variant (`unnamed/part_000`):
same conflict-check-first flow, with `verifyJWT` called through the
`src/util` helper. -/
def createTeamV (db : DB) (jwt : JWT) (teamName : String) (newTeamId : Nat) :
    Except Err ((String × Nat) × DB) :=
  if db.teams.any (fun t => t.name == jsToLowerCase teamName) then
    .error (Err.conflictError none (some codeTeamExists))
  else
    match verifyJWT jwt with
    | .error e => .error e
    | .ok d =>
      match db.findUserById d.id with
      | none => .error Err.typeError
      | some owner =>
        let team : Team :=
          { _id := newTeamId, name := jsToLowerCase teamName, owner := owner._id,
            members := [], socials := { twitter := none, website := none }, invites := [] }
        let owner1 := { owner with teams := owner.teams ++ [team._id] }
        .ok ((team.name, team._id),
          { db with teams := db.teams ++ [team], users := saveUserList db.users owner1 })

/-- `getTeam` of the logging-instrumented variant: identical to the
`Team.ts` one except for the `errorCode` of the unauthorized branch
(`"error_invalid_permissions"`, without the trailing garbage). -/
def getTeamV (db : DB) (jwt : JWT) (teamID : Nat) : Except Err (Team × DB) :=
  match verifyJWT jwt with
  | .error e => .error e
  | .ok d =>
    match db.findUserById d.id with
    | none => .error Err.typeError
    | some user =>
      match db.findTeamById teamID with
      | none => .error (Err.notFoundError none (some codeTeamNotFound))
      | some team =>
        if !user.isAdmin && !(team.inTeam user) then
          .error (Err.unauthorizedError none (some codePermsVariant))
        else .ok (team, db)

/-- `createInvite` of the logging-instrumented variant: the lookups are
awaited (`await Promise.all`) exactly as in `Team.ts`, and the logic is
the same. -/
def createInviteV (db : DB) (jwt : JWT) (teamID : Nat) (opts : InviteOptions)
    (newInviteId : Nat) (code : String) (now : Nat) : Except Err (Invite × DB) :=
  match verifyJWT jwt with
  | .error e => .error e
  | .ok d =>
    match db.findUserById d.id with
    | none => .error Err.typeError
    | some user =>
      match db.findTeamById teamID with
      | none => .error Err.typeError
      | some team =>
        if !user.isAdmin && !(team.isOwner user) then
          .error (Err.badRequestError (some msgOnlyOwnerInvites) (some codeInvalidPerms))
        else
          let invite : Invite :=
            { _id := newInviteId, team := team._id, inviteCode := code,
              expiry := natTruthy opts.expiry, maxUses := natTruthy opts.maxUses,
              createdAt := now, createdByUser := user._id, uses := [] }
          let team1 := { team with invites := team.invites ++ [invite._id] }
          .ok (invite,
            { db with invites := db.invites ++ [invite],
                      teams := saveTeamList db.teams team1 })

/-- `getInvite` of the logging-instrumented variant: same flow as the
`Team.ts` one. -/
def getInviteV (db : DB) (jwt : Option JWT) (inviteID : String) (now : Nat) :
    Except Err (InviteView × DB) :=
  let invite? := db.findInviteByCode inviteID
  let user? : Except Err (Option User) :=
    match jwt with
    | some j =>
      match verifyJWT j with
      | .error e => .error e
      | .ok d => .ok (db.findUserById d.id)
    | none => .ok none
  match user? with
  | .error e => .error e
  | .ok user? =>
    let isAdm := match user? with
      | some u => u.isAdmin
      | none => false
    if !isAdm then
      match invite? with
      | none => .error Err.typeError
      | some invite =>
        if inviteExhausted invite || inviteExpired invite now then
          .error (Err.badRequestError none (some codeExpiredInvite))
        else .ok (InviteView.basic (basicInvite invite), db)
    else .ok (InviteView.full invite?, db)

/- Concrete fixtures used by the witnesses, counterexamples and
code-bug evaluations below.  String literals are bound to names here so
that they can be passed at application positions. -/

def nameAlphaLC : String := "alpha"
def nameALPHA : String := "ALPHA"
def nameCapAlpha : String := "Alpha"
def nameBeta : String := "beta"
def tname1 : String := "teamone"
def tname2 : String := "teamtwo"
def invCode : String := "abc"
def strTw : String := "handle"
def strWeb : String := "site"

def noSocials : Socials := { twitter := none, website := none }

/-- C1 fixture: team 1 with one member (20) and an invite with
`maxUses = 1` already redeemed once (`uses = [20]`); user 30 is about to
redeem it again. -/
def dbC1 : DB :=
  { users := [{ _id := 30, isAdmin := false, teams := [] }],
    teams := [{ _id := 1, name := tname1, owner := 10, members := [20],
                socials := noSocials, invites := [50] }],
    invites := [{ _id := 50, team := 1, inviteCode := invCode, expiry := none,
                  maxUses := some 1, createdAt := 0, createdByUser := 10,
                  uses := [20] }] }

def jwtC1 : JWT := JWT.valid { id := 30, isAdmin := false }

/-- C2 fixture: team 1 owned by user 10 with member 20; both users
reference the team. -/
def dbC2 : DB :=
  { users := [{ _id := 10, isAdmin := false, teams := [1] },
              { _id := 20, isAdmin := false, teams := [1] }],
    teams := [{ _id := 1, name := tname1, owner := 10, members := [20],
                socials := noSocials, invites := [] }],
    invites := [] }

def jwtC2 : JWT := JWT.valid { id := 10, isAdmin := false }

/-- C3 fixture: team 1 owned by user 10 with empty socials. -/
def dbC3 : DB :=
  { users := [{ _id := 10, isAdmin := false, teams := [1] }],
    teams := [{ _id := 1, name := tname1, owner := 10, members := [],
                socials := noSocials, invites := [] }],
    invites := [] }

def jwtC3 : JWT := JWT.valid { id := 10, isAdmin := false }

/-- C3 patch: both social links provided, with distinct values. -/
def patchC3 : TeamDetailsUpdateData :=
  { name := none, socials := some { twitter := some strTw, website := some strWeb } }

/-- C4 fixture: two teams with distinct lowercase names, both owned by
user 10. -/
def dbC4 : DB :=
  { users := [{ _id := 10, isAdmin := false, teams := [1, 2] }],
    teams := [{ _id := 1, name := nameAlphaLC, owner := 10, members := [],
                socials := noSocials, invites := [] },
              { _id := 2, name := nameBeta, owner := 10, members := [],
                socials := noSocials, invites := [] }],
    invites := [] }

def jwtC4 : JWT := JWT.valid { id := 10, isAdmin := false }

/-- C4 patch: rename to `"ALPHA"`, which collides case-insensitively
with team 1. -/
def patchC4 : TeamDetailsUpdateData := { name := some nameALPHA, socials := none }

/-- C5 fixture: a team named `"alpha"` already exists. -/
def dbC5 : DB :=
  { users := [{ _id := 10, isAdmin := false, teams := [1] }],
    teams := [{ _id := 1, name := nameAlphaLC, owner := 10, members := [],
                socials := noSocials, invites := [] }],
    invites := [] }

/-- C6 fixture: an exhausted invite (`maxUses = 1`, one recorded use),
a non-admin user 20 and an admin user 99. -/
def dbC6 : DB :=
  { users := [{ _id := 20, isAdmin := false, teams := [] },
              { _id := 99, isAdmin := true, teams := [] }],
    teams := [{ _id := 1, name := tname1, owner := 10, members := [],
                socials := noSocials, invites := [50] }],
    invites := [{ _id := 50, team := 1, inviteCode := invCode, expiry := none,
                  maxUses := some 1, createdAt := 0, createdByUser := 10,
                  uses := [30] }] }

def invC6 : Invite :=
  { _id := 50, team := 1, inviteCode := invCode, expiry := none,
    maxUses := some 1, createdAt := 0, createdByUser := 10, uses := [30] }

/-- C7 fixture: team 1 owned by caller 10 with member 20 (the transfer
candidate). -/
def dbC7 : DB :=
  { users := [{ _id := 10, isAdmin := false, teams := [1] },
              { _id := 20, isAdmin := false, teams := [1] }],
    teams := [{ _id := 1, name := tname1, owner := 10, members := [20],
                socials := noSocials, invites := [] }],
    invites := [] }

/-- C8 fixture: a team whose stored name `"Alpha"` is not lowercase (the
shape an `updateTeam` rename produces). -/
def dbC8 : DB :=
  { users := [{ _id := 10, isAdmin := false, teams := [1] }],
    teams := [{ _id := 1, name := nameCapAlpha, owner := 10, members := [],
                socials := noSocials, invites := [] }],
    invites := [] }

def jwtC8 : JWT := JWT.valid { id := 10, isAdmin := false }

/-- C9 fixture: team 1 and a non-admin user 20 who is not in it. -/
def dbC9 : DB :=
  { users := [{ _id := 20, isAdmin := false, teams := [] }],
    teams := [{ _id := 1, name := tname1, owner := 10, members := [],
                socials := noSocials, invites := [] }],
    invites := [] }

def jwtC9 : JWT := JWT.valid { id := 20, isAdmin := false }

/-- C10 fixture: user 20 is a stored member of team 2 but the user
record only references team 1 — the membership-list inconsistency a
previous buggy `leaveTeam` leaves behind. -/
def dbC10 : DB :=
  { users := [{ _id := 20, isAdmin := false, teams := [1] }],
    teams := [{ _id := 1, name := tname1, owner := 10, members := [20],
                socials := noSocials, invites := [] },
              { _id := 2, name := tname2, owner := 10, members := [20],
                socials := noSocials, invites := [] }],
    invites := [] }

def jwtC10 : JWT := JWT.valid { id := 20, isAdmin := false }

/-- C10 witness fixture: consistent records — user 20 is a member of
team 2 and references it. -/
def dbC10w : DB :=
  { users := [{ _id := 20, isAdmin := false, teams := [2] }],
    teams := [{ _id := 2, name := tname2, owner := 10, members := [20],
                socials := noSocials, invites := [] }],
    invites := [] }

/-- C4 witness fixture: one user and no teams. -/
def dbC4w : DB :=
  { users := [{ _id := 10, isAdmin := false, teams := [] }],
    teams := [], invites := [] }

/-- The store after `createTeam dbC4w … "ALPHA" 1`: the new team is
persisted with the lowercased name. -/
def dbC4wAfter : DB :=
  { users := [{ _id := 10, isAdmin := false, teams := [1] }],
    teams := [{ _id := 1, name := nameAlphaLC, owner := 10, members := [],
                socials := noSocials, invites := [] }],
    invites := [] }

def jwtC7 : JWT := JWT.valid { id := 10, isAdmin := false }

/-- Team 1 of `dbC7` after the ownership transfer to user 20. -/
def tC7after : Team :=
  { _id := 1, name := tname1, owner := 20, members := [20],
    socials := noSocials, invites := [] }

/-- The store after `updateOwner dbC7 jwtC7 1 20`. -/
def dbC7after : DB :=
  { users := [{ _id := 10, isAdmin := false, teams := [1] },
              { _id := 20, isAdmin := false, teams := [1] }],
    teams := [tC7after], invites := [] }

/-- The caller record of the C10 witness fixture. -/
def userC10w : User := { _id := 20, isAdmin := false, teams := [2] }

/-- All stored team names are fixed points of lowercasing (the shape
`createTeam` alone produces, since it persists the lowercased name). -/
def TeamNamesLower (db : DB) : Prop :=
  ∀ t ∈ db.teams, jsToLowerCase t.name = t.name

/-- Team names are pairwise distinct after lowercasing, the
case-insensitive uniqueness the spec asserts. -/
def TeamNamesUniqueCI (db : DB) : Prop :=
  List.Pairwise (fun a b => jsToLowerCase a ≠ jsToLowerCase b) (db.teams.map Team.name)

instance {ε α : Type} [DecidableEq ε] [DecidableEq α] : DecidableEq (Except ε α) := fun a b =>
  match a, b with
  | .error e1, .error e2 =>
    if h : e1 = e2 then isTrue (by rw [h]) else isFalse (by intro hc; injection hc; contradiction)
  | .ok v1, .ok v2 =>
    if h : v1 = v2 then isTrue (by rw [h]) else isFalse (by intro hc; injection hc; contradiction)
  | .error _, .ok _ => isFalse (by intro hc; exact Except.noConfusion hc)
  | .ok _, .error _ => isFalse (by intro hc; exact Except.noConfusion hc)

instance (db : DB) : Decidable (TeamNamesLower db) :=
  inferInstanceAs (Decidable (∀ t ∈ db.teams, jsToLowerCase t.name = t.name))

instance (db : DB) : Decidable (TeamNamesUniqueCI db) :=
  inferInstanceAs (Decidable (List.Pairwise
    (fun a b => jsToLowerCase a ≠ jsToLowerCase b) (db.teams.map Team.name)))

/-- Lowercasing a character twice is the same as doing it once (the
`Char.toLower` of this toolchain maps only the ASCII upper range, whose
image is disjoint from it). -/
theorem char_toLower_idem (c : Char) : c.toLower.toLower = c.toLower := by
  by_cases h : c.toNat ≥ 65 ∧ c.toNat ≤ 90
  · have hc : c.toLower = Char.ofNat (c.toNat + 32) := by
      unfold Char.toLower
      rw [if_pos h]
    rw [hc]
    obtain ⟨h1, h2⟩ := h
    generalize hg : c.toNat = n at h1 h2 ⊢
    interval_cases n <;> decide
  · have hc : c.toLower = c := by
      unfold Char.toLower
      rw [if_neg h]
    rw [hc]
    exact hc

/-- `jsToLowerCase` is idempotent. -/
theorem jsToLowerCase_idem (s : String) :
    jsToLowerCase (jsToLowerCase s) = jsToLowerCase s := by
  show (⟨(s.data.map Char.toLower).map Char.toLower⟩ : String) = ⟨s.data.map Char.toLower⟩
  rw [List.map_map]
  congr 1
  apply List.map_congr_left
  intro a _
  exact char_toLower_idem a

/-- A present element splits the list at the index `jsIndexOf` finds. -/
theorem jsIndexOf_prefix (l : List Nat) (x : Nat) (h : x ∈ l) :
    ∃ l1 l2, l = l1 ++ x :: l2 ∧ jsIndexOf l x = (l1.length : Int) := by
  induction l with
  | nil => cases h
  | cons a t ih =>
    by_cases hax : a = x
    · exact ⟨[], t, by simp [hax], by simp [jsIndexOf, hax]⟩
    · have hxt : x ∈ t := by
        rcases List.mem_cons.mp h with h1 | h1
        · exact absurd h1.symm hax
        · exact h1
      obtain ⟨l1, l2, he, hi⟩ := ih hxt
      refine ⟨a :: l1, l2, by simp [he], ?_⟩
      have hax2 : (a == x) = false := by simp [hax]
      simp only [jsIndexOf, hax2, if_false, Bool.false_eq_true, hi]
      have h0 : ¬((l1.length : Int) < 0) := by omega
      simp [h0]

/-- The removed-elements list that `arr.splice(arr.indexOf(x), 1)`
returns is exactly `[x]` whenever `x` occurs in the array. -/
theorem jsSplice_removed_of_mem (l : List Nat) (x : Nat) (h : x ∈ l) :
    (jsSpliceOne l (jsIndexOf l x)).1 = [x] := by
  obtain ⟨l1, l2, rfl, hi⟩ := jsIndexOf_prefix _ x h
  rw [jsSpliceOne, hi]
  have h0 : ¬((l1.length : Int) < 0) := by omega
  simp only [if_neg h0, Int.toNat_natCast]
  have hmin : min l1.length (l1 ++ x :: l2).length = l1.length := by
    simp [List.length_append]
  rw [hmin]
  simp [List.drop_left]

/-- After replacing (by key) the record a `find?` by key located, the
same lookup finds the replacement. -/
theorem find?_map_replace {α : Type} (key : α → Nat) (i : Nat) (x x' : α)
    (l : List α) (hf : l.find? (fun y => key y == i) = some x) (hk : key x' = key x) :
    (l.map (fun y => if key y == key x' then x' else y)).find? (fun y => key y == i) = some x' := by
  have hxi : key x = i := by simpa using List.find?_some hf
  have hxi' : key x' = i := by rw [hk, hxi]
  induction l with
  | nil => simp at hf
  | cons a t ih =>
    by_cases hb : key a = i
    · have hax : a = x := by
        simp [List.find?_cons, hb] at hf
        exact hf
      subst hax
      simp [List.find?_cons, hxi, hxi']
    · have hbf : (key a == i) = false := by simp [hb]
      have hf2 : List.find? (fun y => key y == i) t = some x := by
        simp [List.find?_cons, hbf] at hf
        exact hf
      have hne : (key a == key x') = false := by
        rw [hxi']
        exact hbf
      simp only [List.map_cons, List.find?_cons, hne, Bool.false_eq_true, if_false]
      rw [hbf]
      exact ih hf2

/-- Successful `getTeam` returns exactly the stored team record and
leaves the store unchanged. -/
theorem getTeam_ok_inv (db : DB) (jwt : JWT) (tid : Nat) (tm : Team) (db2 : DB)
    (h : getTeam db jwt tid = Except.ok (tm, db2)) :
    db.findTeamById tid = some tm ∧ db2 = db := by
  cases hv : verifyJWT jwt with
  | error e => simp [getTeam, hv] at h
  | ok d =>
    cases hu : db.findUserById d.id with
    | none => simp [getTeam, hv, hu] at h
    | some user =>
      cases ht : db.findTeamById tid with
      | none => simp [getTeam, hv, hu, ht] at h
      | some team =>
        by_cases hc : (!user.isAdmin && !(team.inTeam user)) = true
        · simp [getTeam, hv, hu, ht, hc] at h
        · simp [getTeam, hv, hu, ht, hc] at h
          obtain ⟨h1, h2⟩ := h
          subst h1
          exact ⟨rfl, h2.symm⟩

/-- C1: evaluation of `useInvite` at the failing input — an invite with
`maxUses = 1` that was already redeemed once is redeemed again
successfully, leaving `uses.length = 2 > 1 = maxUses`.  The claimed
invariant (redemption count never exceeds the max-use count) is violated
because `useInvite` performs no expiry or max-use check. -/
theorem useInvite_over_redemption :
    (useInvite dbC1 jwtC1 invCode).toOption.map (fun r =>
      (r.2.findInviteByCode invCode).map (fun i => (i.uses.length, i.maxUses)))
      = some (some (2, some 1)) := by decide

/-- C2: evaluation of `deleteTeam` at the failing input — after the
owner deletes team 1, the team record is gone but member 20's team list
is still exactly `[1]`: the source assigns the *removed* elements that
`splice` returns back over `member.teams`, so the deleted team remains
referenced, contradicting the claimed post-condition. -/
theorem deleteTeam_dangling_reference :
    (deleteTeam dbC2 jwtC2 1).toOption.map (fun r =>
      (r.2.findTeamById 1, (r.2.findUserById 20).map User.teams))
      = some (none, some [1]) := by decide

/-- C3: evaluation of `updateTeam` at the failing input — a patch
providing `socials.twitter = "handle"` and `socials.website = "site"`
leaves `website = "handle"`: the source assigns
`newDetails.socials.twitter` to the website field, contradicting the
claim that the website field receives the patch's website value. -/
theorem updateTeam_website_gets_twitter :
    ((updateTeam dbC3 jwtC3 1 patchC3).toOption.map (fun r => r.1.socials.website)
      = some (some strTw)) ∧ strTw ≠ strWeb := by decide

/-- C4 counterexample: from a state with case-insensitively unique team
names (`"alpha"`, `"beta"`), an `updateTeam` rename of team 2 to
`"ALPHA"` succeeds and produces a state whose names are no longer
case-insensitively unique — `updateTeam` performs no uniqueness or case
check, so the claimed invariant fails. -/
theorem updateTeam_breaks_name_uniqueness :
    TeamNamesUniqueCI dbC4 ∧
    ((updateTeam dbC4 jwtC4 2 patchC4).toOption.map
      (fun r => decide (TeamNamesUniqueCI r.2)) = some false) := by decide

/-- C4 (amended): `createTeam` does preserve the invariant — in any
state whose stored names are lowercase and case-insensitively unique, a
successful `createTeam` yields a state with both properties again. -/
theorem createTeam_preserves_unique_names :
    ∀ (db : DB) (j : JWT) (n : String) (nid : Nat) (r : String × Nat) (db' : DB),
      TeamNamesLower db → TeamNamesUniqueCI db →
      createTeam db j n nid = Except.ok (r, db') →
      TeamNamesLower db' ∧ TeamNamesUniqueCI db' := by
  intro db j n nid r db' hL hU hok
  cases hany : db.teams.any (fun t => t.name == jsToLowerCase n) with
  | true => simp [createTeam, hany] at hok
  | false =>
    cases hv : verifyJWT j with
    | error e => simp [createTeam, hany, hv] at hok
    | ok d =>
      cases hu : db.findUserById d.id with
      | none => simp [createTeam, hany, hv, hu] at hok
      | some owner =>
        simp [createTeam, hany, hv, hu] at hok
        obtain ⟨-, hdb⟩ := hok
        have hnames : ∀ t ∈ db.teams, t.name ≠ jsToLowerCase n := by
          intro t htm
          have := List.any_eq_false.mp hany t htm
          simpa using this
        constructor
        · intro t htm
          rw [← hdb] at htm
          simp at htm
          rcases htm with htm | htm
          · exact hL t htm
          · rw [htm]
            simp [jsToLowerCase_idem]
        · rw [← hdb]
          simp only [TeamNamesUniqueCI, List.map_append, List.map_cons, List.map_nil]
          rw [List.pairwise_append]
          refine ⟨hU, List.pairwise_singleton _ _, ?_⟩
          intro a ha b hb
          simp at hb
          subst hb
          obtain ⟨t, htm, hta⟩ := List.mem_map.mp ha
          subst hta
          rw [hL t htm, jsToLowerCase_idem]
          exact hnames t htm

/-- C4 witness: instantiating the amended preservation theorem on a
concrete one-user store and the request `"ALPHA"`. -/
theorem createTeam_preserves_unique_names_witness :
    TeamNamesLower dbC4w ∧ TeamNamesUniqueCI dbC4w ∧
    (TeamNamesLower dbC4wAfter ∧ TeamNamesUniqueCI dbC4wAfter) :=
  ⟨by decide, by decide,
    createTeam_preserves_unique_names dbC4w (JWT.valid { id := 10, isAdmin := false })
      nameALPHA 1 (nameAlphaLC, 1) dbC4wAfter (by decide) (by decide) (by decide)⟩

/-- C5 counterexample: `createTeam` with a malformed token and an
already-taken name fails with `ConflictError`, not with the
authentication error — the name-conflict check runs before token
verification. -/
theorem createTeam_conflict_precedes_auth :
    JWT.malformed.isInvalid = true ∧
    createTeam dbC5 JWT.malformed nameAlphaLC 9
      = Except.error (Err.conflictError none (some codeTeamExists)) ∧
    Err.conflictError none (some codeTeamExists) ≠ invalidJWTError := by decide

/-- C5 (amended): with an invalid token, every team-service operation
fails with the authentication error `BadRequestError "Invalid JWT"`
regardless of the rest of the state and without any state change — with
two exceptions faithful to the source: `createTeam` reports the name
conflict first (so the authentication error only under no conflict), and
`updateOwner` (which merely decodes the token, relying on the inner
`getTeam` for verification) fails with the authentication error on a
badly signed token but with an uncaught `TypeError` on a malformed
one. -/
theorem invalid_token_short_circuits :
    ∀ (db : DB) (j : JWT), j.isInvalid = true →
      (∀ tid, getTeam db j tid = Except.error invalidJWTError) ∧
      (∀ tid nd, updateTeam db j tid nd = Except.error invalidJWTError) ∧
      (∀ tid opts iid code now,
        createInvite db j tid opts iid code now = Except.error invalidJWTError) ∧
      (∀ code now, getInvite db (some j) code now = Except.error invalidJWTError) ∧
      (∀ code, deleteInvite db j code = Except.error invalidJWTError) ∧
      (∀ code, useInvite db j code = Except.error invalidJWTError) ∧
      (∀ tid, leaveTeam db j tid = Except.error invalidJWTError) ∧
      (∀ tid, deleteTeam db j tid = Except.error invalidJWTError) ∧
      (∀ n nid, db.teams.any (fun t => t.name == jsToLowerCase n) = false →
        createTeam db j n nid = Except.error invalidJWTError) ∧
      (∀ tid noid d, j = JWT.badSig d →
        updateOwner db j tid noid = Except.error invalidJWTError) ∧
      (∀ tid noid, j = JWT.malformed →
        updateOwner db j tid noid = Except.error Err.typeError) := by
  intro db j hj
  cases j with
  | valid d => simp [JWT.isInvalid] at hj
  | badSig d =>
    refine ⟨fun _ => rfl, fun _ _ => rfl, fun _ _ _ _ _ => rfl, fun _ _ => rfl,
      fun _ => rfl, fun _ => rfl, fun _ => rfl, fun _ => rfl, ?_, ?_, ?_⟩
    · intro n nid hany
      simp [createTeam, hany]
      rfl
    · intro _ _ _ _
      rfl
    · intro _ _ h
      exact JWT.noConfusion h
  | malformed =>
    refine ⟨fun _ => rfl, fun _ _ => rfl, fun _ _ _ _ _ => rfl, fun _ _ => rfl,
      fun _ => rfl, fun _ => rfl, fun _ => rfl, fun _ => rfl, ?_, ?_, ?_⟩
    · intro n nid hany
      simp [createTeam, hany]
      rfl
    · intro _ _ _ h
      exact JWT.noConfusion h
    · intro _ _ _
      rfl

/-- C5 witness: the short-circuit theorem instantiated on a concrete
store, both for a malformed token and for a badly signed one (the
latter also exercising the `updateOwner` conjunct). -/
theorem invalid_token_short_circuits_witness :
    JWT.malformed.isInvalid = true ∧
    getTeam dbC9 JWT.malformed 1 = Except.error invalidJWTError ∧
    (JWT.badSig { id := 20, isAdmin := false }).isInvalid = true ∧
    getTeam dbC9 (JWT.badSig { id := 20, isAdmin := false }) 1
      = Except.error invalidJWTError ∧
    updateOwner dbC9 (JWT.badSig { id := 20, isAdmin := false }) 1 20
      = Except.error invalidJWTError :=
  ⟨by decide,
    (invalid_token_short_circuits dbC9 JWT.malformed (by decide)).1 1,
    by decide,
    (invalid_token_short_circuits dbC9
      (JWT.badSig { id := 20, isAdmin := false }) (by decide)).1 1,
    (invalid_token_short_circuits dbC9
      (JWT.badSig { id := 20, isAdmin := false }) (by decide)).2.2.2.2.2.2.2.2.2.1
      1 20 { id := 20, isAdmin := false } rfl⟩

/-- C6: `getInvite` on an exhausted-or-expired invite fails with the
expired-invite error (a constant carrying no invite data, so no internal
field is exposed) for an anonymous caller and for every non-admin
caller, while an admin caller receives the full raw invite record even
then. -/
theorem getInvite_expiry_gate :
    ∀ (db : DB) (now : Nat) (code : String) (invite : Invite),
      db.findInviteByCode code = some invite →
      ((inviteExhausted invite || inviteExpired invite now) = true →
        getInvite db none code now
          = Except.error (Err.badRequestError none (some codeExpiredInvite)) ∧
        (∀ d u, db.findUserById d.id = some u → u.isAdmin = false →
          getInvite db (some (JWT.valid d)) code now
            = Except.error (Err.badRequestError none (some codeExpiredInvite)))) ∧
      (∀ d u, db.findUserById d.id = some u → u.isAdmin = true →
        getInvite db (some (JWT.valid d)) code now
          = Except.ok (InviteView.full (some invite), db)) := by
  intro db now code invite hf
  constructor
  · intro hexp
    constructor
    · simp [getInvite, hf, hexp]
    · intro d u hu hA
      simp [getInvite, verifyJWT, hf, hu, hA, hexp]
  · intro d u hu hA
    simp [getInvite, verifyJWT, hf, hu, hA]

/-- C6 witness: the gate theorem instantiated on a concrete exhausted
invite, for the anonymous, non-admin and admin callers. -/
theorem getInvite_expiry_gate_witness :
    dbC6.findInviteByCode invCode = some invC6 ∧
    (inviteExhausted invC6 || inviteExpired invC6 100) = true ∧
    getInvite dbC6 none invCode 100
      = Except.error (Err.badRequestError none (some codeExpiredInvite)) ∧
    getInvite dbC6 (some (JWT.valid { id := 20, isAdmin := false })) invCode 100
      = Except.error (Err.badRequestError none (some codeExpiredInvite)) ∧
    getInvite dbC6 (some (JWT.valid { id := 99, isAdmin := true })) invCode 100
      = Except.ok (InviteView.full (some invC6), dbC6) :=
  ⟨by decide, by decide,
    ((getInvite_expiry_gate dbC6 100 invCode invC6 (by decide)).1 (by decide)).1,
    ((getInvite_expiry_gate dbC6 100 invCode invC6 (by decide)).1 (by decide)).2
      { id := 20, isAdmin := false } { _id := 20, isAdmin := false, teams := [] }
      (by decide) (by decide),
    (getInvite_expiry_gate dbC6 100 invCode invC6 (by decide)).2
      { id := 99, isAdmin := true } { _id := 99, isAdmin := true, teams := [] }
      (by decide) (by decide)⟩

/-- C7: for a non-admin caller, `updateOwner` succeeds only when the
proposed owner is already in the team and the caller is the current
owner; when the team and candidate exist but either condition fails (for
every possible caller record), the operation raises an error — and, the
operations being embedded as state transformers that only return a new
store on success, the owner is unchanged. -/
theorem updateOwner_guard :
    (∀ (db : DB) (d : JWTData) (tid noid : Nat) (t' : Team) (db' : DB),
      d.isAdmin = false →
      updateOwner db (JWT.valid d) tid noid = Except.ok (t', db') →
      ∃ team caller newOwner,
        db.findTeamById tid = some team ∧
        db.findUserById d.id = some caller ∧
        db.findUserById noid = some newOwner ∧
        team.inTeam newOwner = true ∧ team.isOwner caller = true) ∧
    (∀ (db : DB) (d : JWTData) (tid noid : Nat) (team : Team) (newOwner : User),
      d.isAdmin = false →
      db.findTeamById tid = some team →
      db.findUserById noid = some newOwner →
      (team.inTeam newOwner = false ∨
        ∀ caller, db.findUserById d.id = some caller → team.isOwner caller = false) →
      ∃ e, updateOwner db (JWT.valid d) tid noid = Except.error e) := by
  constructor
  · intro db d tid noid t' db' hA hok
    cases hr : getTeam db (JWT.valid d) tid with
    | error e => simp [updateOwner, decodeJWT, hr] at hok
    | ok pr =>
      obtain ⟨team0, dbx⟩ := pr
      obtain ⟨ht, _⟩ := getTeam_ok_inv db (JWT.valid d) tid team0 dbx hr
      cases hu : db.findUserById d.id with
      | none => simp [updateOwner, decodeJWT, hr, hu] at hok
      | some caller =>
        cases hn : db.findUserById noid with
        | none => simp [updateOwner, decodeJWT, hr, hu, hn] at hok
        | some newOwner =>
          by_cases h1 : team0.inTeam newOwner = true
          · by_cases h2 : team0.isOwner caller = true
            · exact ⟨team0, caller, newOwner, ht, rfl, rfl, h1, h2⟩
            · have h2f : team0.isOwner caller = false := by
                cases hx : team0.isOwner caller
                · rfl
                · exact absurd hx h2
              simp [updateOwner, decodeJWT, hr, hu, hn, hA, h1, h2f] at hok
          · have h1f : team0.inTeam newOwner = false := by
              cases hx : team0.inTeam newOwner
              · rfl
              · exact absurd hx h1
            simp [updateOwner, decodeJWT, hr, hu, hn, hA, h1f] at hok
  · intro db d tid noid team newOwner hA ht hn hfail
    cases hr : getTeam db (JWT.valid d) tid with
    | error e => exact ⟨e, by simp [updateOwner, decodeJWT, hr]⟩
    | ok pr =>
      obtain ⟨team0, dbx⟩ := pr
      obtain ⟨ht0, _⟩ := getTeam_ok_inv db (JWT.valid d) tid team0 dbx hr
      have hteam : team0 = team := by
        rw [ht] at ht0
        exact (Option.some.inj ht0).symm
      subst hteam
      cases hu : db.findUserById d.id with
      | none => exact ⟨Err.typeError, by simp [updateOwner, decodeJWT, hr, hu]⟩
      | some caller =>
        rcases hfail with h1 | h2
        · exact ⟨Err.badRequestError (some msgNewOwnerInTeam) none,
            by simp [updateOwner, decodeJWT, hr, hu, hn, hA, h1]⟩
        · have hio : team0.isOwner caller = false := h2 caller hu
          by_cases h1 : team0.inTeam newOwner = true
          · exact ⟨Err.badRequestError (some msgCannotTransfer) (some codeUserNotOwner),
              by simp [updateOwner, decodeJWT, hr, hu, hn, hA, h1, hio]⟩
          · have h1f : team0.inTeam newOwner = false := by
              cases hx : team0.inTeam newOwner
              · rfl
              · exact absurd hx h1
            exact ⟨Err.badRequestError (some msgNewOwnerInTeam) none,
              by simp [updateOwner, decodeJWT, hr, hu, hn, hA, h1f]⟩

/-- C7 witness: a successful non-admin transfer on a concrete store
(owner 10 hands team 1 to member 20), instantiating the success
direction of the guard theorem. -/
theorem updateOwner_guard_witness :
    updateOwner dbC7 jwtC7 1 20 = Except.ok (tC7after, dbC7after) ∧
    ∃ team caller newOwner,
      dbC7.findTeamById 1 = some team ∧
      dbC7.findUserById 10 = some caller ∧
      dbC7.findUserById 20 = some newOwner ∧
      team.inTeam newOwner = true ∧ team.isOwner caller = true :=
  ⟨by decide,
    updateOwner_guard.1 dbC7 { id := 10, isAdmin := false } 1 20 tC7after dbC7after
      (by decide) (by decide)⟩

/-- C8 counterexample: with a stored team named `"Alpha"` (a mixed-case
name an `updateTeam` rename can produce), `createTeam` for `"ALPHA"` —
whose case-insensitive form matches — succeeds instead of failing with
`ConflictError`: the check compares the lowercased request against the
stored names verbatim. -/
theorem createTeam_misses_mixed_case_conflict :
    jsToLowerCase nameALPHA = jsToLowerCase nameCapAlpha ∧
    dbC8.teams.map Team.name = [nameCapAlpha] ∧
    (createTeam dbC8 jwtC8 nameALPHA 5).toOption.map (fun r => r.1)
      = some (nameAlphaLC, 5) := by decide

/-- C8 (amended): `createTeam` fails with `ConflictError` exactly
against the stored names verbatim: whenever some stored team name equals
the lowercased request it conflicts, and in states where all stored
names are lowercase this coincides with the case-insensitive check the
claim states. -/
theorem createTeam_conflict_on_lowercase_match :
    (∀ (db : DB) (j : JWT) (n : String) (nid : Nat),
      (∃ t ∈ db.teams, t.name = jsToLowerCase n) →
      createTeam db j n nid
        = Except.error (Err.conflictError none (some codeTeamExists))) ∧
    (∀ (db : DB) (j : JWT) (n : String) (nid : Nat),
      TeamNamesLower db →
      (∃ t ∈ db.teams, jsToLowerCase t.name = jsToLowerCase n) →
      createTeam db j n nid
        = Except.error (Err.conflictError none (some codeTeamExists))) := by
  constructor
  · intro db j n nid hex
    obtain ⟨t, htm, hte⟩ := hex
    have hany : db.teams.any (fun t => t.name == jsToLowerCase n) = true :=
      List.any_eq_true.mpr ⟨t, htm, by simp [hte]⟩
    simp [createTeam, hany]
  · intro db j n nid hL hex
    obtain ⟨t, htm, hte⟩ := hex
    rw [hL t htm] at hte
    have hany : db.teams.any (fun t => t.name == jsToLowerCase n) = true :=
      List.any_eq_true.mpr ⟨t, htm, by simp [hte]⟩
    simp [createTeam, hany]

/-- C8 witness: the conflict theorem instantiated on a store holding a
team named `"alpha"` and the request `"alpha"`. -/
theorem createTeam_conflict_witness :
    (∃ t ∈ dbC5.teams, t.name = jsToLowerCase nameAlphaLC) ∧
    createTeam dbC5 (JWT.valid { id := 10, isAdmin := false }) nameAlphaLC 7
      = Except.error (Err.conflictError none (some codeTeamExists)) :=
  ⟨⟨{ _id := 1, name := nameAlphaLC, owner := 10, members := [],
      socials := noSocials, invites := [] }, by decide, by decide⟩,
    createTeam_conflict_on_lowercase_match.1 dbC5
      (JWT.valid { id := 10, isAdmin := false }) nameAlphaLC 7
      ⟨{ _id := 1, name := nameAlphaLC, owner := 10, members := [],
         socials := noSocials, invites := [] }, by decide, by decide⟩⟩

/-- C9 counterexample: the two variants are observably different — on a
non-admin caller outside the team, `getTeam` of `Team.ts` and the
logging-instrumented `getTeam` return `UnauthorizedError`s with
different error codes. -/
theorem variant_getTeam_differs :
    getTeam dbC9 jwtC9 1 ≠ getTeamV dbC9 jwtC9 1 := by decide

/-- C9 (amended): the `createTeam`, `createInvite` and `getInvite`
operations of the two variants return the same result and make the same
state change on every input and state; the remaining operations differ
beyond logging (the unauthorized error code of `getTeam`, the up-front
token verification of the variant's `updateOwner`, and the variant's
un-awaited record lookups in `deleteInvite`, `useInvite`, `leaveTeam`
and `deleteTeam`). -/
theorem variant_operations_agree :
    ∀ (db : DB) (j : JWT) (tn : String) (nid : Nat) (tid : Nat) (opts : InviteOptions)
      (iid : Nat) (code : String) (now : Nat) (jopt : Option JWT) (icode : String),
      createTeam db j tn nid = createTeamV db j tn nid ∧
      createInvite db j tid opts iid code now = createInviteV db j tid opts iid code now ∧
      getInvite db jopt icode now = getInviteV db jopt icode now := by
  intro _ _ _ _ _ _ _ _ _ _ _
  exact ⟨rfl, rfl, rfl⟩

/-- C10 counterexample: `leaveTeam` succeeds for a non-owner stored
member whose own record does not list the team (a state a previous buggy
`leaveTeam` produces); `indexOf` then returns `-1`, `splice(-1, 1)`
removes the *last* entry, and the caller's team list ends as `[1]`, not
the claimed one-element list `[2]` containing the departed team. -/
theorem leaveTeam_splice_counterexample :
    (leaveTeam dbC10 jwtC10 2).toOption.map (fun r =>
      (r.2.findUserById 20).map User.teams) = some (some [1]) ∧
    ([1] : List Nat) ≠ [2] := by decide

/-- C10 (amended): when `leaveTeam` succeeds and the departed team does
appear in the caller's stored team list, the stored member list becomes
exactly `[caller]` and the caller's stored team list exactly `[team]` —
the removed-elements array `splice` returns is assigned back over each
list. -/
theorem leaveTeam_splice_assigns_removed :
    ∀ (db : DB) (d : JWTData) (tid : Nat) (db' : DB) (user : User),
      db.findUserById d.id = some user →
      tid ∈ user.teams →
      leaveTeam db (JWT.valid d) tid = Except.ok ((), db') →
      (∃ t', db'.findTeamById tid = some t' ∧ t'.members = [d.id]) ∧
      (∃ u', db'.findUserById d.id = some u' ∧ u'.teams = [tid]) := by
  intro db d tid db' user hu htm hok
  have huid : user._id = d.id := by simpa using List.find?_some hu
  cases ht : db.findTeamById tid with
  | none => simp [leaveTeam, verifyJWT, ht] at hok
  | some team =>
    have htid : team._id = tid := by simpa using List.find?_some ht
    cases hio : team.isOwner user with
    | true => simp [leaveTeam, verifyJWT, ht, hu, hio] at hok
    | false =>
      cases hin : team.inTeam user with
      | false => simp [leaveTeam, verifyJWT, ht, hu, hio, hin] at hok
      | true =>
        have hmem : user._id ∈ team.members := by
          have h2 : (team.owner == user._id || team.members.contains user._id) = true := hin
          rw [Team.isOwner] at hio
          rw [hio] at h2
          simpa using h2
        simp [leaveTeam, verifyJWT, ht, hu, hio, hin] at hok
        constructor
        · refine ⟨{ team with members :=
              (jsSpliceOne team.members (jsIndexOf team.members user._id)).1 }, ?_, ?_⟩
          · rw [← hok]
            show (saveTeamList db.teams _).find? (fun t => t._id == tid) = _
            exact find?_map_replace Team._id tid team _ db.teams ht rfl
          · rw [jsSplice_removed_of_mem team.members user._id hmem, huid]
        · refine ⟨{ user with teams :=
              (jsSpliceOne user.teams (jsIndexOf user.teams team._id)).1 }, ?_, ?_⟩
          · rw [← hok]
            show (saveUserList db.users _).find? (fun u => u._id == d.id) = _
            exact find?_map_replace User._id d.id user _ db.users hu rfl
          · rw [htid, jsSplice_removed_of_mem user.teams tid htm]

/-- C10 witness: the amended theorem instantiated on a consistent store
(member 20 leaves team 2, which its record references). -/
theorem leaveTeam_splice_assigns_removed_witness :
    dbC10w.findUserById 20 = some userC10w ∧ 2 ∈ userC10w.teams ∧
    ((∃ t', dbC10w.findTeamById 2 = some t' ∧ t'.members = [20]) ∧
     (∃ u', dbC10w.findUserById 20 = some u' ∧ u'.teams = [2])) :=
  ⟨by decide, by decide,
    leaveTeam_splice_assigns_removed dbC10w { id := 20, isAdmin := false } 2 dbC10w
      userC10w (by decide) (by decide) (by decide)⟩

end CTFNote
